import Mathlib

/-!
Verification development for the msal-express-wrapper authentication middleware.

The definitions below are a shallow embedding of the TypeScript sources:
the AuthProvider class (sign-in, redirect handling, token acquisition,
guards, access-rule evaluation, overage resolution) and the UrlUtils helper.
External collaborators (the MSAL confidential client, the token validators)
are passed in as an explicit environment of functions; request-scoped and
session-scoped mutable state is threaded explicitly.  JavaScript exceptions
are modelled with an explicit error type: an uncaught throw and a call of
the express error continuation are distinct outcomes.
-/

set_option maxRecDepth 4096

/-! ## Base64 codec

Model of the CryptoProvider base64Encode and base64Decode helpers used for
the state query parameter.  Characters are mapped to their code points; the
development only instantiates it on printable-ASCII content, where this
agrees with the UTF-8 byte encoding done by the JavaScript implementation.
-/

def b64Chars : List Char :=
  "ABCDEFGHIJKLMNOPQRSTUVWXYZabcdefghijklmnopqrstuvwxyz0123456789+/".data

def sextetToChar (n : Nat) : Char := b64Chars.getD n 'A'

def charToSextet (c : Char) : Option Nat := b64Chars.indexOf? c

def encodeChunks : List Nat → List Char
  | [] => []
  | [b1] => [sextetToChar (b1 / 4), sextetToChar (b1 % 4 * 16), '=', '=']
  | [b1, b2] =>
      [sextetToChar (b1 / 4), sextetToChar (b1 % 4 * 16 + b2 / 16),
       sextetToChar (b2 % 16 * 4), '=']
  | b1 :: b2 :: b3 :: rest =>
      sextetToChar (b1 / 4) :: sextetToChar (b1 % 4 * 16 + b2 / 16) ::
      sextetToChar (b2 % 16 * 4 + b3 / 64) :: sextetToChar (b3 % 64) ::
      encodeChunks rest

def decodeChunks : List Char → Option (List Nat)
  | [] => some []
  | c1 :: c2 :: c3 :: c4 :: rest =>
    match charToSextet c1, charToSextet c2 with
    | some s1, some s2 =>
      if c3 = '=' then
        if c4 = '=' ∧ rest = [] then some [s1 * 4 + s2 / 16] else none
      else
        match charToSextet c3 with
        | some s3 =>
          if c4 = '=' then
            if rest = [] then some [s1 * 4 + s2 / 16, s2 % 16 * 16 + s3 / 4]
            else none
          else
            match charToSextet c4 with
            | some s4 =>
              match decodeChunks rest with
              | some ds =>
                  some ((s1 * 4 + s2 / 16) :: (s2 % 16 * 16 + s3 / 4) ::
                        (s3 % 4 * 64 + s4) :: ds)
              | none => none
            | none => none
        | none => none
    | _, _ => none
  | _ => none

def base64EncodeList (cs : List Char) : List Char :=
  encodeChunks (cs.map Char.toNat)

def base64DecodeList (cs : List Char) : Option (List Char) :=
  (decodeChunks cs).map (fun bs => bs.map Char.ofNat)

/-! ## State blob codec

The wrapper correlates each redirect round trip through an opaque string:
base64Encode applied to the JSON serialization of the object literal
with the keys stage, path and nonce, in that order (AuthProvider.signIn and
AuthProvider.getToken build it; AuthProvider.handleRedirect decodes it).
JSON.parse is modelled for exactly the object shape that the encoder emits;
texts of any other shape decode to none, which stands for the SyntaxError
thrown by JSON.parse.
-/

structure StateBlob where
  stage : String
  path : String
  nonce : String
deriving DecidableEq

def jsonEscape (cs : List Char) : List Char :=
  cs.flatMap (fun c => if c = '"' ∨ c = '\\' then ['\\', c] else [c])

def litStage : List Char := "\x7b\"stage\":\"".data

def litPath : List Char := ",\"path\":\"".data

def litNonce : List Char := ",\"nonce\":\"".data

def stringifyBlob (b : StateBlob) : List Char :=
  "\x7b\"stage\":\"".data ++ jsonEscape b.stage.data ++
  "\",\"path\":\"".data ++ jsonEscape b.path.data ++
  "\",\"nonce\":\"".data ++ jsonEscape b.nonce.data ++
  "\"\x7d".data

def parseQuoted : List Char → Option (List Char × List Char)
  | [] => none
  | '"' :: rest => some ([], rest)
  | '\\' :: c2 :: rest2 => (parseQuoted rest2).map (fun p => (c2 :: p.1, p.2))
  | c :: rest => (parseQuoted rest).map (fun p => (c :: p.1, p.2))

def dropLit (lit l : List Char) : Option (List Char) :=
  if l.take lit.length = lit then some (l.drop lit.length) else none

def parseStateList (l : List Char) : Option StateBlob := do
  let l ← dropLit litStage l
  let (stage, l) ← parseQuoted l
  let l ← dropLit litPath l
  let (path, l) ← parseQuoted l
  let l ← dropLit litNonce l
  let (nonce, l) ← parseQuoted l
  match l with
  | ['\x7d'] => some { stage := ⟨stage⟩, path := ⟨path⟩, nonce := ⟨nonce⟩ }
  | _ => none

def encodeState (b : StateBlob) : String := ⟨base64EncodeList (stringifyBlob b)⟩

def decodeState (s : String) : Option StateBlob :=
  (base64DecodeList s.data).bind parseStateList

def validChar (c : Char) : Bool := 0x20 ≤ c.toNat ∧ c.toNat < 0x80

def validString (s : String) : Bool := s.data.all validChar

def validBlob (b : StateBlob) : Bool :=
  validString b.stage && validString b.path && validString b.nonce

/-! ## Constants

The Constants module of the repository is not among the given sources.
Modelled from the spec: the redirect state machine has the stages SIGN_IN
and ACQUIRE_TOKEN, and the access-control code keys claims by the literal
claim names groups, roles and the two overage markers.  Only the
distinctness of these string tags matters to the development.
-/

def AppStages.SIGN_IN : String := "sign_in"

def AppStages.ACQUIRE_TOKEN : String := "acquire_token"

def AccessConstants.GROUPS : String := "groups"

def AccessConstants.ROLES : String := "roles"

def AccessConstants.GRAPH_MEMBER_SCOPES : String := "GroupMember.Read.All"

/-! ## Data model

Session-scoped and request-scoped state, the configuration, and the results
of the external MSAL/validator calls.  Option models a field that may be
undefined in JavaScript.
-/

inductive JsError where
  | parseError
  | typeError
  | interactionRequired
  | acquireError
  | validationError
  | fetchError
deriving DecidableEq

/-- Terminal outcomes of one middleware invocation: an HTTP redirect,
passing control to the next handler, passing an error to the express error
handler, or an uncaught JavaScript exception. -/
inductive Outcome where
  | redirect (target : String)
  | next
  | nextError (e : JsError)
  | thrown (e : JsError)
deriving DecidableEq

structure IdTokenClaims where
  claimNames : Option String
  claimSources : Option String
  groups : Option (List String)
  roles : Option (List String)
deriving DecidableEq

structure Account where
  homeAccountId : String
  environment : String
  tenantId : String
  username : String
  idTokenClaims : IdTokenClaims
deriving DecidableEq

structure Resource where
  scopes : List String
  accessToken : Option String
deriving DecidableEq

structure TokenRequest where
  authority : String
  scopes : List String
  redirectUri : String
  code : Option String
deriving DecidableEq

structure AuthCodeRequest where
  authority : String
  scopes : List String
  state : String
  redirectUri : String
  prompt : Option String
  account : Option Account
deriving DecidableEq

structure TokenResponse where
  accessToken : String
  idToken : String
  account : Option Account
deriving DecidableEq

structure SilentRequest where
  account : Option Account
  scopes : List String
deriving DecidableEq

structure Session where
  isAuthenticated : Bool
  nonce : String
  account : Option Account
  authCodeRequest : Option AuthCodeRequest
  tokenRequest : Option TokenRequest
  remoteResources : Option (List (String × Resource))
deriving DecidableEq

structure AuthRoutes where
  redirect : String
  unauthorized : String
  error : String
deriving DecidableEq

structure AppSettings where
  authority : String
  authRoutes : AuthRoutes
  remoteResources : List (String × Resource)
  ownedResources : List (String × Resource)
deriving DecidableEq

/-- Declarative access rule for a route.  The TypeScript type leaves roles
and groups optional; checkAccessRule dereferences the set selected by its
credType argument without a presence check (the source would throw on a
rule lacking it), so the embedding carries both sets as plain lists. -/
structure AccessRule where
  methods : List String
  roles : List String
  groups : List String
deriving DecidableEq

/-- Inbound request data read by the middleware under verification. -/
structure Req where
  state : Option String
  code : Option String
  originalUrl : String
  method : String
  protocol : String
  host : String
  baseUrl : String
  path : String
  authorization : Option String
deriving DecidableEq

structure TokenRequestOptions where
  resource : Resource
deriving DecidableEq

/-- External collaborators: the MSAL confidential client and the token
validator, each call returning either a value or a thrown error. -/
structure Env where
  acquireTokenByCode : TokenRequest → Except JsError TokenResponse
  acquireTokenSilent : SilentRequest → Except JsError TokenResponse
  validateIdToken : String → Except JsError Bool
  getAuthCodeUrl : AuthCodeRequest → Except JsError String
  verifyAccessTokenSignature : Option String → String → Except JsError Bool

/-! ## UrlUtils -/

/-- Embedding of UrlUtils.ensureAbsoluteUrl.  The component extraction done
by the external UrlString helper is modelled as: a protocol is present iff
the string contains the separator sequence colon-slash-slash, and a
protocol-less URI has no host component iff it begins with a slash. -/
def ensureAbsoluteUrl (req : Req) (uri : String) : String :=
  if (uri.splitOn ("://")).length != 1 then uri
  else if uri.startsWith ("/") then req.protocol ++ "://" ++ req.host ++ uri
  else req.protocol ++ "://" ++ uri

/-! ## AuthProvider utility methods -/

/-- AuthProvider.getResourceNameFromScopes: finds the configured resource
whose scope list serializes identically, over the merge of remoteResources
and ownedResources, and returns its key; none models the undefined result
when no resource matches. -/
def getResourceNameFromScopes (app : AppSettings) (scopes : List String) :
    Option String :=
  ((app.remoteResources ++ app.ownedResources).find?
    (fun p => p.2.scopes == scopes)).map (fun p => p.1)

/-- Key under which AuthProvider.getToken stores the requested resource:
the resolved resource name, or the string rendering of undefined used by a
JavaScript computed key when the lookup failed. -/
def resourceKey (app : AppSettings) (scopes : List String) : String :=
  (getResourceNameFromScopes app scopes).getD ("undefined")

/-- The fresh resource record AuthProvider.getToken writes: a spread of the
configured resource with accessToken nulled out. -/
def resetResource (app : AppSettings) (scopes : List String) : Resource :=
  { scopes := ((app.remoteResources.lookup (resourceKey app scopes)).map
      (fun r => r.scopes)).getD []
    accessToken := none }

/-- Session after the wholesale remoteResources replacement at the top of
AuthProvider.getToken: a map holding exactly the requested resource. -/
def resetSession (app : AppSettings) (scopes : List String) (s : Session) :
    Session :=
  { s with remoteResources :=
      (some [(resourceKey app scopes, resetResource app scopes)]) }

def setAccessToken (l : List (String × Resource)) (k tok : String) :
    List (String × Resource) :=
  l.map (fun p => if p.1 = k then (p.1, { p.2 with accessToken := some tok })
                  else p)

/-- AuthProvider.getAuthCode: writes the parameters into the session's
authCodeRequest and tokenRequest (throwing if either is absent, as the
property writes would), then requests an authorization URL and redirects
there; a getAuthCodeUrl failure goes to the error handler. -/
structure AuthCodeParams where
  authority : String
  scopes : List String
  state : String
  redirect : String
  prompt : Option String
  account : Option Account
deriving DecidableEq

def getAuthCode (env : Env) (params : AuthCodeParams) (s : Session) :
    Session × Outcome :=
  match s.authCodeRequest with
  | none => (s, .thrown .typeError)
  | some _ =>
    let s := { s with authCodeRequest :=
      (some { authority := params.authority, scopes := params.scopes,
              state := params.state, redirectUri := params.redirect,
              prompt := params.prompt, account := params.account }) }
    match s.tokenRequest with
    | none => (s, .thrown .typeError)
    | some tr =>
      let s := { s with tokenRequest :=
        (some { tr with authority := params.authority,
                        scopes := params.scopes,
                        redirectUri := params.redirect }) }
      match env.getAuthCodeUrl
        { authority := params.authority, scopes := params.scopes,
          state := params.state, redirectUri := params.redirect,
          prompt := params.prompt, account := params.account } with
      | .ok url => (s, .redirect url)
      | .error e => (s, .nextError e)

/-! ## AuthProvider.handleRedirect -/

/-- Embedding of AuthProvider.handleRedirect.  A missing or empty state
query parameter redirects to the unauthorized route; a state whose decode
fails is an uncaught JSON.parse exception (the call is outside any try
block); a nonce mismatch redirects to the unauthorized route; the SIGN_IN
stage exchanges the code, validates the identity token and on success
stores the account and authenticates the session; the ACQUIRE_TOKEN stage
exchanges the code and stores the access token on the resolved resource;
any other stage redirects to the error route. -/
def handleRedirect (app : AppSettings) (env : Env) (req : Req) (s : Session) :
    Session × Outcome :=
  match req.state with
  | none => (s, .redirect app.authRoutes.unauthorized)
  | some st =>
    if st = "" then (s, .redirect app.authRoutes.unauthorized)
    else
      match decodeState st with
      | none => (s, .thrown .parseError)
      | some state =>
        if state.nonce = s.nonce then
          if state.stage = AppStages.SIGN_IN then
            match s.tokenRequest with
            | none => (s, .thrown .typeError)
            | some tr =>
              let tr' : TokenRequest := { tr with code := req.code }
              let s := { s with tokenRequest := some tr' }
              match env.acquireTokenByCode tr' with
              | .error e => (s, .nextError e)
              | .ok tresp =>
                match env.validateIdToken tresp.idToken with
                | .error e => (s, .nextError e)
                | .ok true =>
                    ({ s with account := tresp.account,
                              isAuthenticated := true },
                     .redirect state.path)
                | .ok false => (s, .redirect app.authRoutes.unauthorized)
          else if state.stage = AppStages.ACQUIRE_TOKEN then
            match s.tokenRequest with
            | none => (s, .thrown .typeError)
            | some tr =>
              let resourceName := getResourceNameFromScopes app tr.scopes
              let tr' : TokenRequest := { tr with code := req.code }
              let s := { s with tokenRequest := some tr' }
              match env.acquireTokenByCode tr' with
              | .error e => (s, .nextError e)
              | .ok tresp =>
                match s.remoteResources with
                | none => (s, .nextError .typeError)
                | some resources =>
                  let key := resourceName.getD ("undefined")
                  match resources.lookup key with
                  | none => (s, .nextError .typeError)
                  | some _ =>
                    ({ s with remoteResources :=
                        (some (setAccessToken resources key
                          tresp.accessToken)) },
                     .redirect state.path)
          else (s, .redirect app.authRoutes.error)
        else (s, .redirect app.authRoutes.unauthorized)

/-! ## AuthProvider.getToken -/

/-- Authorization-code parameters built by the interactive fallback in the
catch block of AuthProvider.getToken: a state blob with stage
ACQUIRE_TOKEN, the original request URL as the resume path, and the
session's nonce. -/
def interactiveParams (app : AppSettings) (req : Req) (s : Session)
    (scopes : List String) : AuthCodeParams :=
  { authority := app.authority
    scopes := scopes
    state := encodeState
      { stage := AppStages.ACQUIRE_TOKEN, path := req.originalUrl,
        nonce := s.nonce }
    redirect := ensureAbsoluteUrl req app.authRoutes.redirect
    prompt := none
    account := s.account }

/-- Embedding of AuthProvider.getToken.  The session's remoteResources map
is replaced by a map holding only the requested resource with a nulled
token; silent acquisition is attempted; an empty access token on a
successful silent call is converted into an InteractionRequired error, and
that error (however raised) triggers the interactive authorization-code
fallback; other errors go to the error handler. -/
def getToken (app : AppSettings) (env : Env) (opts : TokenRequestOptions)
    (req : Req) (s : Session) : Session × Outcome :=
  let scopes := opts.resource.scopes
  let key := resourceKey app scopes
  let s := resetSession app scopes s
  match env.acquireTokenSilent { account := s.account, scopes := scopes } with
  | .ok tresp =>
    if tresp.accessToken = "" then
      getAuthCode env (interactiveParams app req s scopes) s
    else
      ({ s with remoteResources :=
          (some (setAccessToken [(key, resetResource app scopes)] key
            tresp.accessToken)) },
       .next)
  | .error .interactionRequired =>
      getAuthCode env (interactiveParams app req s scopes) s
  | .error e => (s, .nextError e)

/-! ## Guards -/

/-- Embedding of AuthProvider.isAuthorized.  The source reads
authorization.split before checking that the header is present, so a
missing header is an uncaught TypeError; a present but empty header takes
the not-found branch; otherwise the token after the first space is
verified against the request path. -/
def isAuthorized (app : AppSettings) (env : Env) (req : Req) :
    Except JsError Outcome :=
  match req.authorization with
  | none => .error .typeError
  | some h =>
    let accessToken := (h.splitOn (" ")).get? 1
    if h ≠ "" then
      match env.verifyAccessTokenSignature accessToken
        (req.baseUrl ++ req.path) with
      | .error e => .error e
      | .ok true => .ok .next
      | .ok false => .ok (.redirect app.authRoutes.unauthorized)
    else .ok (.redirect app.authRoutes.unauthorized)

/-! ## Access rule evaluator -/

/-- Embedding of AuthProvider.checkAccessRule: deny when the method is not
listed; otherwise, for the selected credential type, deny when no rule
entry occurs among the caller's credentials; any other credential type
falls through to allow. -/
def checkAccessRule (method : String) (rule : AccessRule)
    (creds : List String) (credType : String) : Bool :=
  if rule.methods.contains method then
    if credType = AccessConstants.GROUPS then
      if (rule.groups.filter (fun elem => creds.contains elem)).length < 1 then
        false
      else true
    else if credType = AccessConstants.ROLES then
      if (rule.roles.filter (fun elem => creds.contains elem)).length < 1 then
        false
      else true
    else true
  else false

/-! ## Overage resolution

The FetchManager module is not among the given sources.  Modelled from the
spec: the Directory Lookup Adapter exposes listMemberships, returning items
and an optional next-page link, and followPagination, which follows a
next-page link to completion and returns the items of the pages it
fetches.  The directory is represented as the list of its pages (each page
a list of group ids, the shape the caller extracts), and a link is the
index of the page it points to. -/

structure GraphPage where
  value : List String
  nextLink : Option Nat
deriving DecidableEq

structure GraphDirectory where
  pages : List (List String)
deriving DecidableEq

/-- Modelled from the spec: FetchManager.callApiEndpoint fetches the first
page of the membership listing; a next-page link is present iff further
pages exist. -/
def callApiEndpoint (dir : GraphDirectory) : GraphPage :=
  { value := dir.pages.headD []
    nextLink := if dir.pages.length ≤ 1 then none else some 1 }

/-- Modelled from the spec: FetchManager.handlePagination follows the given
next-page link to completion and returns the items of the pages it
fetches. -/
def handlePagination (dir : GraphDirectory) (link : Nat) : List String :=
  (dir.pages.drop link).flatten

def stripOverage (c : IdTokenClaims) : IdTokenClaims :=
  { c with claimNames := none, claimSources := none }

/-- Embedding of AuthProvider.handleOverage: strips the overage markers,
silently acquires a directory-read token, fetches the membership listing,
follows a next-page link when present, substitutes the fetched group list
into the account's claims and evaluates the access rule against it. -/
def handleOverage (app : AppSettings) (env : Env) (dir : GraphDirectory)
    (req : Req) (rule : AccessRule) (s : Session) : Session × Outcome :=
  match s.account with
  | none => (s, .thrown .typeError)
  | some account =>
    let newIdTokenClaims := stripOverage account.idTokenClaims
    match env.acquireTokenSilent
      { account := s.account,
        scopes := AccessConstants.GRAPH_MEMBER_SCOPES.splitOn (" ") } with
    | .error e => (s, .nextError e)
    | .ok _tresp =>
      let graphResponse := callApiEndpoint dir
      match graphResponse.nextLink with
      | some link =>
        let userGroups := handlePagination dir link
        let s := { s with account :=
          (some { account with idTokenClaims :=
              { newIdTokenClaims with groups := some userGroups } }) }
        if checkAccessRule req.method rule userGroups
            AccessConstants.GROUPS then (s, .next)
        else (s, .redirect app.authRoutes.unauthorized)
      | none =>
        let groups := graphResponse.value
        let s := { s with account :=
          (some { account with idTokenClaims :=
              { newIdTokenClaims with groups := some groups } }) }
        if checkAccessRule req.method rule groups
            AccessConstants.GROUPS then (s, .next)
        else (s, .redirect app.authRoutes.unauthorized)

/-! ## Concrete instances

Configuration, session and collaborator instances used to exercise the
middleware on explicit inputs. -/

def sampleAuthRoutes : AuthRoutes :=
  { redirect := "/redirect", unauthorized := "/unauthorized",
    error := "/error" }

def graphResource : Resource :=
  { scopes := ["User.Read"], accessToken := none }

def sampleApp : AppSettings :=
  { authority := "https://login.example.com/common"
    authRoutes := sampleAuthRoutes
    remoteResources := [("graphAPI", graphResource)]
    ownedResources := [] }

def emptyClaims : IdTokenClaims :=
  { claimNames := none, claimSources := none, groups := none, roles := none }

def sampleAccount : Account :=
  { homeAccountId := "hid", environment := "login.example.com",
    tenantId := "tid", username := "user", idTokenClaims := emptyClaims }

def baseTokenRequest : TokenRequest :=
  { authority := "", scopes := ["User.Read"], redirectUri := "",
    code := none }

def baseAuthCodeRequest : AuthCodeRequest :=
  { authority := "", scopes := [], state := "", redirectUri := "",
    prompt := none, account := none }

def baseSession : Session :=
  { isAuthenticated := false
    nonce := "nonce-1"
    account := some sampleAccount
    authCodeRequest := some baseAuthCodeRequest
    tokenRequest := some baseTokenRequest
    remoteResources := some [("graphAPI", graphResource)] }

def sampleTokenResponse : TokenResponse :=
  { accessToken := "token-abc", idToken := "idtoken-xyz",
    account := some sampleAccount }

def okEnv : Env :=
  { acquireTokenByCode := fun _ => .ok sampleTokenResponse
    acquireTokenSilent := fun _ => .ok sampleTokenResponse
    validateIdToken := fun _ => .ok true
    getAuthCodeUrl := fun r =>
      .ok ("https://login.example.com/authorize?state=" ++ r.state)
    verifyAccessTokenSignature := fun _ _ => .ok false }

def emptySilentEnv : Env :=
  { okEnv with acquireTokenSilent :=
      (fun _ => .ok { accessToken := "", idToken := "", account := none }) }

def baseReq : Req :=
  { state := none
    code := some ("authcode-1")
    originalUrl := "/profile"
    method := "GET"
    protocol := "https"
    host := "app.example.com"
    baseUrl := ""
    path := "/profile"
    authorization := none }

def mismatchBlob : StateBlob :=
  { stage := AppStages.SIGN_IN, path := "/home", nonce := "other-nonce" }

def signInBlob : StateBlob :=
  { stage := AppStages.SIGN_IN, path := "/profile", nonce := "nonce-1" }

def unknownStageBlob : StateBlob :=
  { stage := "sign_out", path := "/home", nonce := "nonce-1" }

def reqMismatch : Req := { baseReq with state := some (encodeState mismatchBlob) }

def reqSignIn : Req := { baseReq with state := some (encodeState signInBlob) }

def reqUnknownStage : Req :=
  { baseReq with state := some (encodeState unknownStageBlob) }

def reqMalformed : Req := { baseReq with state := some ("####") }

def sampleOpts : TokenRequestOptions := { resource := graphResource }

def overageRule : AccessRule :=
  { methods := ["GET"], roles := [], groups := ["g1"] }

def adminRule : AccessRule :=
  { methods := ["GET"], roles := ["admin"], groups := [] }

def overageClaims : IdTokenClaims :=
  { claimNames := some ("src1"), claimSources := some ("src1"), groups := none,
    roles := none }

def overageAccount : Account :=
  { sampleAccount with idTokenClaims := overageClaims }

def overageSession : Session := { baseSession with account := some overageAccount }

def sampleDir : GraphDirectory := { pages := [["g1"], ["g2"]] }

/-! ## Codec lemmas -/

theorem charToSextet_sextetToChar :
    ∀ n, n < 64 → charToSextet (sextetToChar n) = some n := by decide

theorem sextetToChar_ne_pad : ∀ n, n < 64 → sextetToChar n ≠ '=' := by decide

theorem decode_encode_chunks :
    ∀ bs : List Nat, (∀ b ∈ bs, b < 256) →
      decodeChunks (encodeChunks bs) = some bs
  | [], _ => rfl
  | [b1], h => by
      have hb1 : b1 < 256 := h b1 (by simp)
      have e1 := charToSextet_sextetToChar (b1 / 4) (by omega)
      have e2 := charToSextet_sextetToChar (b1 % 4 * 16) (by omega)
      simp [encodeChunks, decodeChunks, e1, e2]
      omega
  | [b1, b2], h => by
      have hb1 : b1 < 256 := h b1 (by simp)
      have hb2 : b2 < 256 := h b2 (by simp)
      have e1 := charToSextet_sextetToChar (b1 / 4) (by omega)
      have e2 := charToSextet_sextetToChar (b1 % 4 * 16 + b2 / 16) (by omega)
      have e3 := charToSextet_sextetToChar (b2 % 16 * 4) (by omega)
      have ne3 := sextetToChar_ne_pad (b2 % 16 * 4) (by omega)
      simp [encodeChunks, decodeChunks, e1, e2, e3, ne3]
      omega
  | b1 :: b2 :: b3 :: rest, h => by
      have hb1 : b1 < 256 := h b1 (by simp)
      have hb2 : b2 < 256 := h b2 (by simp)
      have hb3 : b3 < 256 := h b3 (by simp)
      have ih := decode_encode_chunks rest
        (fun b hb => h b (by simp [hb]))
      have e1 := charToSextet_sextetToChar (b1 / 4) (by omega)
      have e2 := charToSextet_sextetToChar (b1 % 4 * 16 + b2 / 16) (by omega)
      have e3 := charToSextet_sextetToChar (b2 % 16 * 4 + b3 / 64) (by omega)
      have e4 := charToSextet_sextetToChar (b3 % 64) (by omega)
      have ne3 := sextetToChar_ne_pad (b2 % 16 * 4 + b3 / 64) (by omega)
      have ne4 := sextetToChar_ne_pad (b3 % 64) (by omega)
      simp [encodeChunks, decodeChunks, e1, e2, e3, e4, ne3, ne4, ih]
      omega

theorem base64DecodeList_encodeList (cs : List Char)
    (h : ∀ c ∈ cs, c.toNat < 256) :
    base64DecodeList (base64EncodeList cs) = some cs := by
  unfold base64EncodeList base64DecodeList
  rw [decode_encode_chunks (cs.map Char.toNat)
    (by intro b hb; simp at hb; obtain ⟨c, hc, rfl⟩ := hb; exact h c hc)]
  simp [Function.comp_def]

theorem jsonEscape_cons (c : Char) (cs : List Char) :
    jsonEscape (c :: cs) =
      (if c = '"' ∨ c = '\\' then ['\\', c] else [c]) ++ jsonEscape cs := by
  simp [jsonEscape]

theorem parseQuoted_escape :
    ∀ cs rest : List Char,
      parseQuoted (jsonEscape cs ++ '"' :: rest) = some (cs, rest)
  | [], rest => by simp [jsonEscape, parseQuoted]
  | c :: cs, rest => by
      have ih := parseQuoted_escape cs rest
      rw [jsonEscape_cons]
      by_cases hc : c = '"' ∨ c = '\\'
      · rw [if_pos hc]
        simp [parseQuoted, ih]
      · rw [if_neg hc]
        push_neg at hc
        obtain ⟨hc1, hc2⟩ := hc
        simp [parseQuoted, hc1, hc2, ih]

theorem dropLit_append (lit rest : List Char) :
    dropLit lit (lit ++ rest) = some rest := by
  simp [dropLit, List.take_left, List.drop_left]

theorem stringifyBlob_decomp (b : StateBlob) :
    stringifyBlob b =
      litStage ++ (jsonEscape b.stage.data ++ ('"' ::
        (litPath ++ (jsonEscape b.path.data ++ ('"' ::
          (litNonce ++ (jsonEscape b.nonce.data ++
            ('"' :: ['\x7d'])))))))) := by
  simp [stringifyBlob, litStage, litPath, litNonce]

theorem parseStateList_stringify (b : StateBlob) :
    parseStateList (stringifyBlob b) = some b := by
  rw [stringifyBlob_decomp]
  unfold parseStateList
  rw [dropLit_append]
  simp only [Option.bind_eq_bind, Option.some_bind]
  rw [parseQuoted_escape]
  simp only [Option.some_bind]
  rw [dropLit_append]
  simp only [Option.some_bind]
  rw [parseQuoted_escape]
  simp only [Option.some_bind]
  rw [dropLit_append]
  simp only [Option.some_bind]
  rw [parseQuoted_escape]
  simp only [Option.some_bind]

theorem mem_jsonEscape {c : Char} {cs : List Char}
    (h : c ∈ jsonEscape cs) : c = '\\' ∨ c ∈ cs := by
  unfold jsonEscape at h
  rw [List.mem_flatMap] at h
  obtain ⟨a, ha, hc⟩ := h
  by_cases h2 : a = '"' ∨ a = '\\'
  · simp [h2] at hc
    rcases hc with rfl | rfl
    · exact Or.inl rfl
    · exact Or.inr ha
  · simp [h2] at hc
    exact Or.inr (hc ▸ ha)

theorem validString_ascii {s : String} (h : validString s = true) :
    ∀ c ∈ s.data, c.toNat < 256 := by
  intro c hc
  have := (List.all_eq_true.mp h) c hc
  simp [validChar] at this
  omega

theorem lit1_ascii : ∀ c ∈ ("\x7b\"stage\":\"".data : List Char),
    c.toNat < 256 := by decide

theorem lit2_ascii : ∀ c ∈ ("\",\"path\":\"".data : List Char),
    c.toNat < 256 := by decide

theorem lit3_ascii : ∀ c ∈ ("\",\"nonce\":\"".data : List Char),
    c.toNat < 256 := by decide

theorem lit4_ascii : ∀ c ∈ ("\"\x7d".data : List Char),
    c.toNat < 256 := by decide

theorem stringifyBlob_ascii (b : StateBlob) (h : validBlob b = true) :
    ∀ c ∈ stringifyBlob b, c.toNat < 256 := by
  simp only [validBlob, Bool.and_eq_true] at h
  obtain ⟨⟨hs, hp⟩, hn⟩ := h
  intro c hc
  unfold stringifyBlob at hc
  simp only [List.append_assoc, List.mem_append] at hc
  rcases hc with hc | hc | hc | hc | hc | hc | hc
  · exact lit1_ascii c hc
  · rcases mem_jsonEscape hc with rfl | hc
    · decide
    · exact validString_ascii hs c hc
  · exact lit2_ascii c hc
  · rcases mem_jsonEscape hc with rfl | hc
    · decide
    · exact validString_ascii hp c hc
  · exact lit3_ascii c hc
  · rcases mem_jsonEscape hc with rfl | hc
    · decide
    · exact validString_ascii hn c hc
  · exact lit4_ascii c hc

/-- Round trip of the state codec on printable-ASCII blobs: decoding the
base64 of the JSON serialization returns the original blob. -/
theorem decode_encode (b : StateBlob) (h : validBlob b = true) :
    decodeState (encodeState b) = some b := by
  unfold encodeState decodeState
  show (base64DecodeList (base64EncodeList (stringifyBlob b))).bind
    parseStateList = some b
  rw [base64DecodeList_encodeList _ (stringifyBlob_ascii b h)]
  simp [parseStateList_stringify]

/-! ## Claim C9 -/

/-- C9: for every valid state blob value consisting of stage, path and
nonce, decoding the encoded form (base64-decoding then JSON-parsing the
string produced by JSON-stringifying and base64-encoding it) yields
exactly the original value.  Validity restricts the fields to
printable-ASCII content, where the character-code model of the UTF-8 step
is exact. -/
theorem decodeState_encodeState_roundtrip (b : StateBlob)
    (h : validBlob b = true) : decodeState (encodeState b) = some b :=
  decode_encode b h

theorem decodeState_encodeState_roundtrip_witness :
    decodeState (encodeState
      { stage := "sign_in", path := "/home", nonce := "abc-123" }) =
      some { stage := "sign_in", path := "/home", nonce := "abc-123" } :=
  decodeState_encodeState_roundtrip
    { stage := "sign_in", path := "/home", nonce := "abc-123" } (by decide)

/-! ## Claim C4 -/

/-- C4: the access rule evaluator returns false whenever the method is not
in the rule's method list; otherwise it returns true exactly when the
intersection of the rule's role or group set (selected by the credential
type) with the credentials is nonempty, so a single matching credential
suffices. -/
theorem checkAccessRule_correct (method : String) (rule : AccessRule)
    (creds : List String) (credType : String)
    (h : credType = AccessConstants.GROUPS ∨
         credType = AccessConstants.ROLES) :
    checkAccessRule method rule creds credType = true ↔
      method ∈ rule.methods ∧ ∃ c ∈ (if credType = AccessConstants.GROUPS
        then rule.groups else rule.roles), c ∈ creds := by
  have key : ∀ l : List String,
      (¬ (l.filter (fun elem => creds.contains elem)).length < 1) ↔
        ∃ c ∈ l, c ∈ creds := by
    intro l
    simp [Nat.lt_one_iff, List.length_eq_zero, List.filter_eq_nil_iff]
  rcases h with rfl | rfl
  · by_cases hm : method ∈ rule.methods
    · by_cases hx : ∃ c ∈ rule.groups, c ∈ creds
      · have hlen := (key rule.groups).mpr hx
        simp [checkAccessRule, hm, hlen, hx]
      · have hlen : (rule.groups.filter
            (fun elem => creds.contains elem)).length < 1 := by
          by_contra hc
          exact hx ((key rule.groups).mp hc)
        simp [checkAccessRule, hm, hlen, hx]
    · simp [checkAccessRule, hm]
  · by_cases hm : method ∈ rule.methods
    · by_cases hx : ∃ c ∈ rule.roles, c ∈ creds
      · have hlen := (key rule.roles).mpr hx
        simp [checkAccessRule, hm, hlen, hx,
          AccessConstants.ROLES, AccessConstants.GROUPS]
      · have hlen : (rule.roles.filter
            (fun elem => creds.contains elem)).length < 1 := by
          by_contra hc
          exact hx ((key rule.roles).mp hc)
        simp [checkAccessRule, hm, hlen, hx,
          AccessConstants.ROLES, AccessConstants.GROUPS]
    · simp [checkAccessRule, hm]

theorem checkAccessRule_correct_witness :
    checkAccessRule ("GET") adminRule ["admin", "user"]
        AccessConstants.ROLES = true ↔
      "GET" ∈ adminRule.methods ∧
        ∃ c ∈ (if AccessConstants.ROLES = AccessConstants.GROUPS
          then adminRule.groups else adminRule.roles),
          c ∈ ["admin", "user"] :=
  checkAccessRule_correct ("GET") adminRule ["admin", "user"]
    AccessConstants.ROLES (Or.inr rfl)

/-! ## Claim C1 -/

/-- C1: a redirect callback carrying a state whose decoded nonce differs
from the session's nonce redirects to the configured unauthorized target
and performs no stage processing: the result is the same for every
collaborator environment (so no code exchange can have been consulted) and
the session is returned unchanged (so neither account nor isAuthenticated
is written), regardless of the state's stage or path. -/
theorem handleRedirect_nonce_mismatch_denies (app : AppSettings) (env : Env)
    (req : Req) (s : Session) (st : String) (blob : StateBlob)
    (h1 : req.state = some st) (h2 : st ≠ "")
    (h3 : decodeState st = some blob) (h4 : blob.nonce ≠ s.nonce) :
    handleRedirect app env req s =
      (s, .redirect app.authRoutes.unauthorized) := by
  simp only [handleRedirect, h1, h2, h3, h4, if_false, ite_false]

theorem handleRedirect_nonce_mismatch_denies_witness :
    handleRedirect sampleApp okEnv reqMismatch baseSession =
      (baseSession, .redirect sampleApp.authRoutes.unauthorized) :=
  handleRedirect_nonce_mismatch_denies sampleApp okEnv reqMismatch
    baseSession (encodeState mismatchBlob) mismatchBlob rfl (by decide)
    (decode_encode mismatchBlob (by decide)) (by decide)

/-! ## Claim C3 -/

/-- C3: a redirect callback with a matching nonce and stage SIGN_IN whose
code exchange succeeds and whose identity token validates sets the
session's account to the returned account, sets isAuthenticated to true,
and redirects exactly to the decoded state's path. -/
theorem handleRedirect_sign_in_success (app : AppSettings) (env : Env)
    (req : Req) (s : Session) (st : String) (blob : StateBlob)
    (tr : TokenRequest) (tresp : TokenResponse)
    (h1 : req.state = some st) (h2 : st ≠ "")
    (h3 : decodeState st = some blob)
    (h4 : blob.nonce = s.nonce) (h5 : blob.stage = AppStages.SIGN_IN)
    (h6 : s.tokenRequest = some tr)
    (h7 : env.acquireTokenByCode { tr with code := req.code } = .ok tresp)
    (h8 : env.validateIdToken tresp.idToken = .ok true) :
    handleRedirect app env req s =
      ({ s with tokenRequest := (some { tr with code := req.code }),
                account := tresp.account, isAuthenticated := true },
       .redirect blob.path) := by
  simp only [handleRedirect, h1, h2, h3, h4, h5, h6, h7, h8, if_true,
    ite_true]
  simp

theorem handleRedirect_sign_in_success_witness :
    handleRedirect sampleApp okEnv reqSignIn baseSession =
      ({ baseSession with
          tokenRequest := (some { baseTokenRequest with code := baseReq.code }),
          account := sampleTokenResponse.account, isAuthenticated := true },
       .redirect signInBlob.path) :=
  handleRedirect_sign_in_success sampleApp okEnv reqSignIn baseSession
    (encodeState signInBlob) signInBlob baseTokenRequest sampleTokenResponse
    rfl (by decide) (decode_encode signInBlob (by decide)) rfl rfl rfl rfl
    rfl

/-! ## Claim C6 -/

/-- C6 counterexample: a present state that is not valid encoded JSON does
not produce the unauthorized redirect; the JSON.parse failure escapes as
an uncaught exception, falsifying the claim at this input. -/
theorem handleRedirect_malformed_state_cx :
    handleRedirect sampleApp okEnv reqMalformed baseSession =
      (baseSession, .thrown .parseError) ∧
    Outcome.thrown .parseError ≠
      .redirect sampleApp.authRoutes.unauthorized := by
  constructor
  · decide
  · decide

/-- C6 amended: a redirect callback whose state query parameter is present
but is not valid encoded JSON makes the decode failure escape as an
uncaught exception; the unauthorized redirect is not produced for
malformed state (only for missing state or nonce mismatch). -/
theorem handleRedirect_malformed_state_throws (app : AppSettings)
    (env : Env) (req : Req) (s : Session) (st : String)
    (h1 : req.state = some st) (h2 : st ≠ "")
    (h3 : decodeState st = none) :
    handleRedirect app env req s = (s, .thrown .parseError) := by
  simp only [handleRedirect, h1, h2, h3, if_false, ite_false]

theorem handleRedirect_malformed_state_throws_witness :
    handleRedirect sampleApp okEnv reqMalformed baseSession =
      (baseSession, .thrown .parseError) :=
  handleRedirect_malformed_state_throws sampleApp okEnv reqMalformed
    baseSession ("####") rfl (by decide) (by decide)

/-! ## Claim C8 -/

theorem hr_unknown_stage (app : AppSettings) (env : Env) (req : Req)
    (s : Session) (st : String) (blob : StateBlob)
    (h1 : req.state = some st) (h2 : st ≠ "")
    (h3 : decodeState st = some blob) (h4 : blob.nonce = s.nonce)
    (h5 : blob.stage ≠ AppStages.SIGN_IN)
    (h6 : blob.stage ≠ AppStages.ACQUIRE_TOKEN) :
    handleRedirect app env req s = (s, .redirect app.authRoutes.error) := by
  simp only [handleRedirect, h1, h2, h3, h4, h5, h6, if_true, if_false,
    ite_true, ite_false]

/-- C8 counterexample: a callback with matching nonce and the unrecognized
stage sign_out does not redirect to the configured unauthorized target
(the code sends it to the error route instead), falsifying the claim at
this input. -/
theorem handleRedirect_unknown_stage_cx :
    (handleRedirect sampleApp okEnv reqUnknownStage baseSession).2 ≠
      Outcome.redirect sampleApp.authRoutes.unauthorized := by
  have h := hr_unknown_stage sampleApp okEnv reqUnknownStage baseSession
    (encodeState unknownStageBlob) unknownStageBlob rfl (by decide)
    (decode_encode unknownStageBlob (by decide)) rfl (by decide) (by decide)
  rw [h]
  decide

/-- C8 amended: a redirect callback whose decoded state has a matching
nonce but a stage that is neither SIGN_IN nor ACQUIRE_TOKEN redirects to
the configured error target (the CANNOT_DETERMINE_APP_STAGE condition),
not to the unauthorized target. -/
theorem handleRedirect_unknown_stage_error_redirect (app : AppSettings)
    (env : Env) (req : Req) (s : Session) (st : String) (blob : StateBlob)
    (h1 : req.state = some st) (h2 : st ≠ "")
    (h3 : decodeState st = some blob) (h4 : blob.nonce = s.nonce)
    (h5 : blob.stage ≠ AppStages.SIGN_IN)
    (h6 : blob.stage ≠ AppStages.ACQUIRE_TOKEN) :
    handleRedirect app env req s = (s, .redirect app.authRoutes.error) :=
  hr_unknown_stage app env req s st blob h1 h2 h3 h4 h5 h6

theorem handleRedirect_unknown_stage_error_redirect_witness :
    handleRedirect sampleApp okEnv reqUnknownStage baseSession =
      (baseSession, .redirect sampleApp.authRoutes.error) :=
  handleRedirect_unknown_stage_error_redirect sampleApp okEnv
    reqUnknownStage baseSession (encodeState unknownStageBlob)
    unknownStageBlob rfl (by decide)
    (decode_encode unknownStageBlob (by decide)) rfl (by decide) (by decide)

/-! ## Claim C5 -/

/-- C5: in the getToken middleware, a silent acquisition that succeeds but
returns an empty access-token string is not treated as success: the result
is exactly the interactive fallback through the shared authorization-code
routine, and the state blob it builds has stage ACQUIRE_TOKEN, path equal
to the original request URL, and the session's nonce. -/
theorem getToken_empty_token_interactive_fallback (app : AppSettings)
    (env : Env) (opts : TokenRequestOptions) (req : Req) (s : Session)
    (tresp : TokenResponse)
    (h1 : env.acquireTokenSilent
      { account := s.account, scopes := opts.resource.scopes } = .ok tresp)
    (h2 : tresp.accessToken = "") :
    getToken app env opts req s =
      getAuthCode env
        (interactiveParams app req (resetSession app opts.resource.scopes s)
          opts.resource.scopes)
        (resetSession app opts.resource.scopes s) ∧
    (interactiveParams app req (resetSession app opts.resource.scopes s)
        opts.resource.scopes).state =
      encodeState { stage := AppStages.ACQUIRE_TOKEN,
                    path := req.originalUrl, nonce := s.nonce } := by
  refine ⟨?_, rfl⟩
  have e : env.acquireTokenSilent
      { account := (resetSession app opts.resource.scopes s).account,
        scopes := opts.resource.scopes } = .ok tresp := h1
  simp only [getToken, e, h2, if_true, ite_true]

theorem getToken_empty_token_interactive_fallback_witness :
    getToken sampleApp emptySilentEnv sampleOpts baseReq baseSession =
      getAuthCode emptySilentEnv
        (interactiveParams sampleApp baseReq
          (resetSession sampleApp sampleOpts.resource.scopes baseSession)
          sampleOpts.resource.scopes)
        (resetSession sampleApp sampleOpts.resource.scopes baseSession) ∧
    (interactiveParams sampleApp baseReq
        (resetSession sampleApp sampleOpts.resource.scopes baseSession)
        sampleOpts.resource.scopes).state =
      encodeState { stage := AppStages.ACQUIRE_TOKEN,
                    path := baseReq.originalUrl,
                    nonce := baseSession.nonce } :=
  getToken_empty_token_interactive_fallback sampleApp emptySilentEnv
    sampleOpts baseReq baseSession
    { accessToken := "", idToken := "", account := none } rfl rfl

/-! ## Claim C7 -/

/-- C7: the claim says a request without an Authorization header is
redirected to the configured unauthorized target; the code instead reads
the split of the missing header before its presence check, so the guard
throws an uncaught TypeError at that input (the redirect branch for the
missing header is unreachable). -/
theorem isAuthorized_missing_header_throws (app : AppSettings) (env : Env)
    (req : Req) (h : req.authorization = none) :
    isAuthorized app env req = .error .typeError := by
  simp only [isAuthorized, h]

theorem isAuthorized_missing_header_throws_witness :
    isAuthorized sampleApp okEnv baseReq = .error .typeError :=
  isAuthorized_missing_header_throws sampleApp okEnv baseReq rfl

/-! ## Claim C10 -/

theorem getAuthCode_remoteResources (env : Env) (params : AuthCodeParams)
    (s : Session) :
    ((getAuthCode env params s).1).remoteResources = s.remoteResources := by
  obtain ⟨ia, no, ac, acr, tr, rr⟩ := s
  unfold getAuthCode
  cases acr
  · rfl
  · dsimp only
    cases tr
    · rfl
    · dsimp only
      rcases env.getAuthCodeUrl _ with e | url
      · rfl
      · rfl

/-- C10: every invocation of the getToken middleware leaves the session's
remoteResources map holding exactly the one entry for the currently
requested resource, on every control path, so a token previously stored
for a different resource in the same session is discarded. -/
theorem getToken_resets_remote_resources (app : AppSettings) (env : Env)
    (opts : TokenRequestOptions) (req : Req) (s : Session) :
    ∃ r, ((getToken app env opts req s).1).remoteResources =
      some [(resourceKey app opts.resource.scopes, r)] := by
  unfold getToken
  dsimp only
  rcases henv : env.acquireTokenSilent
      { account := (resetSession app opts.resource.scopes s).account,
        scopes := opts.resource.scopes } with e | tresp
  · cases e
    case interactionRequired =>
      refine ⟨resetResource app opts.resource.scopes, ?_⟩
      rw [getAuthCode_remoteResources]
      rfl
    all_goals exact ⟨resetResource app opts.resource.scopes, rfl⟩
  · dsimp only
    by_cases hT : tresp.accessToken = ""
    · rw [if_pos hT]
      refine ⟨resetResource app opts.resource.scopes, ?_⟩
      rw [getAuthCode_remoteResources]
      rfl
    · rw [if_neg hT]
      refine ⟨{ resetResource app opts.resource.scopes with
        accessToken := some tresp.accessToken }, ?_⟩
      simp [setAccessToken]

/-! ## Claim C2 -/

/-- C2: the claim says the access rule is evaluated only against the
complete merged group set of all directory pages, first page included.
Evaluating the code on a two-page directory whose first page alone grants
access shows the rule being evaluated without the first page's items: the
outcome is the unauthorized redirect even though the rule accepts the
union of both pages. -/
theorem handleOverage_drops_first_page :
    (handleOverage sampleApp okEnv sampleDir baseReq overageRule
        overageSession).2 =
      .redirect sampleApp.authRoutes.unauthorized ∧
    checkAccessRule baseReq.method overageRule sampleDir.pages.flatten
        AccessConstants.GROUPS = true := by
  constructor
  · decide
  · decide
